import Mathlib

/-!
Verification of the TAFY firmware's SmartBus subsystem against its
natural-language specification.

The development shallowly embeds the relevant Python source
(`main.py`, `SmartBus/__init__.py`) as Lean definitions:

* JSON values produced by `json.load` become an inductive `Json` type;
* `load_SmartBus_config`, `is_safety_on`, `blink`, and `SmartBus.init`
  are translated function-by-function, with hardware interactions
  (pin construction, I2C construction, bus scan) modelled through an
  explicit `Hardware` environment and an `Effect` trace, and Python
  exceptions modelled as explicit error results;
* Python module-level mutable state (`SmartBus.INTERNAL_CONFIG`,
  `SmartBus.I2C`) becomes an explicit `SBState` record threaded through
  `SmartBus.init`.

The components the specification describes but the repository does not
implement (Identification Sensor, Conflict Resolver, Device Table,
Routing Engine) are modelled from the specification's words; each such
definition carries a doc comment that starts with `Modelled from the
spec:`.
-/

namespace TAFY

/-! ## JSON values -/

/-- JSON values as produced by MicroPython's `json.load`: `null`, booleans,
numbers, strings, arrays and objects.  The manifest and configuration files
of the repository only use integer numbers, so numbers are embedded as
integers. -/
inductive Json where
  | null : Json
  | bool : Bool → Json
  | num : Int → Json
  | str : String → Json
  | arr : List Json → Json
  | obj : List (String × Json) → Json

/-- Field lookup in a JSON object; `none` on non-objects and missing keys. -/
def Json.lookup : Json → String → Option Json
  | .obj fields, k => fields.lookup k
  | _, _ => none

/-! ## `load_SmartBus_config` (main.py lines 166-247) -/

/-- The hard-coded default SmartBus manifest from the `except:` branch of
`load_SmartBus_config` (main.py lines 172-245), translated field for field.
Note that the whole payload sits under a single top-level `"smartbus"` key. -/
def defaultSmartBusManifest : Json :=
  .obj [("smartbus", .obj [
    ("devices", .arr [
      .obj [("name", .str "smartspine_v1"),
            ("role", .str "mag_spine"),
            ("rid_bucket_ohms", .num 47000),
            ("i2c_addresses", .arr [.num 48]),
            ("provides", .arr [.str "ammo_level", .str "mag_id"]),
            ("consumes", .arr [.str "fire_mode", .str "blaster_state"]),
            ("routes", .obj [
              ("to_firing_system", .arr [.str "ammo_level"]),
              ("to_display", .arr [.str "ammo_level", .str "mag_id"]),
              ("to_device", .arr [])])],
      .obj [("name", .str "smartmag_v1"),
            ("role", .str "mag"),
            ("rid_bucket_ohms", .num 22000),
            ("i2c_addresses", .arr [.num 49]),
            ("provides", .arr [.str "ammo_level", .str "mag_id"]),
            ("consumes", .arr [.str "fire_mode", .str "blaster_state"]),
            ("routes", .obj [
              ("to_firing_system", .arr [.str "ammo_level"]),
              ("to_display", .arr [.str "ammo_level", .str "mag_id"]),
              ("to_device", .arr [])])],
      .obj [("name", .str "barrel_chrono_v1"),
            ("role", .str "barrel"),
            ("rid_bucket_ohms", .num 33000),
            ("i2c_addresses", .arr [.num 80]),
            ("provides", .arr [.str "muzzle_velocity"]),
            ("consumes", .arr [.str "fire_mode", .str "blaster_state"]),
            ("routes", .obj [
              ("to_firing_system", .arr []),
              ("to_display", .arr [.str "muzzle_velocity"]),
              ("to_device", .arr [.str "blaster_state"])])],
      .obj [("name", .str "power_only"),
            ("role", .str "power_only"),
            ("rid_bucket_ohms", .num 4700),
            ("i2c_addresses", .arr []),
            ("provides", .arr []),
            ("consumes", .arr []),
            ("routes", .obj [
              ("to_firing_system", .arr []),
              ("to_display", .arr []),
              ("to_device", .arr [])])]]),
    ("defaults", .obj [
      ("mag_role_priority", .arr [.str "mag", .str "mag_spine"]),
      ("max_devices", .num 4)])])]

/-- Translation of `load_SmartBus_config` (main.py lines 166-247).  The
Python body wraps `open` plus `json.load` in a bare `try`/`except:`; the
parameter is the outcome of that read-and-parse attempt (`Except.error`
covers a missing file, unreadable file, or malformed JSON — any exception).
On any failure the hard-coded default manifest is returned; the function
itself never raises, which is why its result type is plain `Json`. -/
def load_SmartBus_config (readAttempt : Except String Json) : Json :=
  match readAttempt with
  | .ok parsed => parsed
  | .error _ => defaultSmartBusManifest

/-! ## Documented manifest format (spec section 6) -/

/-- Check that a JSON value is a string. -/
def Json.isStr : Json → Bool
  | .str _ => true
  | _ => false

/-- Check that a JSON value is a number. -/
def Json.isNum : Json → Bool
  | .num _ => true
  | _ => false

/-- Check that a JSON value is an array of strings. -/
def Json.isStrArr : Json → Bool
  | .arr xs => xs.all Json.isStr
  | _ => false

/-- Check that a JSON value is an array of numbers. -/
def Json.isNumArr : Json → Bool
  | .arr xs => xs.all Json.isNum
  | _ => false

/-- Check that an object has key `k` and that its value satisfies `p`. -/
def Json.hasKeyWith (j : Json) (k : String) (p : Json → Bool) : Bool :=
  match j.lookup k with
  | some v => p v
  | none => false

/-- Conformance of a `routes` object to the documented format: an object
keyed by `to_firing_system`, `to_display` and `to_device`, each mapped to a
list of capability names. -/
def conformsRoutes (j : Json) : Bool :=
  j.hasKeyWith "to_firing_system" Json.isStrArr &&
  j.hasKeyWith "to_display" Json.isStrArr &&
  j.hasKeyWith "to_device" Json.isStrArr

/-- Conformance of one `devices` entry to the documented format. -/
def conformsDeviceEntry (j : Json) : Bool :=
  j.hasKeyWith "name" Json.isStr &&
  j.hasKeyWith "role" Json.isStr &&
  j.hasKeyWith "rid_bucket_ohms" Json.isNum &&
  j.hasKeyWith "i2c_addresses" Json.isNumArr &&
  j.hasKeyWith "provides" Json.isStrArr &&
  j.hasKeyWith "consumes" Json.isStrArr &&
  j.hasKeyWith "routes" conformsRoutes

/-- Extract the `name` field of a device entry, when it is a string. -/
def deviceEntryName (j : Json) : Option String :=
  match j.lookup "name" with
  | some (.str s) => some s
  | _ => none

/-- Check that a list of strings has no repeated element. -/
def allDistinct : List String → Bool
  | [] => true
  | x :: xs => !(xs.contains x) && allDistinct xs

/-- Conformance of a JSON value to the documented manifest format
(spec section 6): an object with a `devices` list whose entries all conform
and carry pairwise-distinct names, plus a `defaults` object with
`mag_role_priority` (list of role names) and `max_devices` (integer). -/
def conformsManifestFormat (j : Json) : Bool :=
  (match j.lookup "devices" with
   | some (.arr devs) =>
       devs.all conformsDeviceEntry && allDistinct (devs.filterMap deviceEntryName)
   | _ => false) &&
  (match j.lookup "defaults" with
   | some d =>
       d.hasKeyWith "mag_role_priority" Json.isStrArr &&
       d.hasKeyWith "max_devices" Json.isNum
   | none => false)

/-- Conformance of a manifest whose documented payload sits under a single
top-level `smartbus` key, as the hard-coded default in
`load_SmartBus_config` is laid out. -/
def conformsUnderSmartbusKey (j : Json) : Bool :=
  match j.lookup "smartbus" with
  | some inner => conformsManifestFormat inner
  | none => false

/-! ## SmartBus module (SmartBus/__init__.py) -/

/-- The `INTERNAL_CONFIG` record of `SmartBus/__init__.py` (lines 41-48). -/
structure InternalConfig where
  version : String
  SmartBus_enabled : Bool
  SmartBus_SDA : Int
  SmartBus_SCL : Int
  SmartBus_ID : Int
  SmartBus_Freq : Int
deriving DecidableEq

/-- Initial value of `INTERNAL_CONFIG` at module load
(SmartBus/__init__.py lines 41-48). -/
def INTERNAL_CONFIG_initial : InternalConfig :=
  { version := "v1.2"
    SmartBus_enabled := true
    SmartBus_SDA := 20
    SmartBus_SCL := 21
    SmartBus_ID := 26
    SmartBus_Freq := 100000 }

/-- A constructed I2C peripheral handle, as produced by
`machine.I2C(1, scl=Pin(SCL), sda=Pin(SDA), freq=Freq)`. -/
structure I2CHandle where
  busId : Int
  scl : Int
  sda : Int
  freq : Int
deriving DecidableEq

/-- Module-level mutable state of `SmartBus/__init__.py`: the
`INTERNAL_CONFIG` dictionary and the module-level global `I2C`
(line 51, initialized to `None`). -/
structure SBState where
  internal : InternalConfig
  I2C : Option I2CHandle
deriving DecidableEq

/-- Module state right after `import SmartBus`: the initial
`INTERNAL_CONFIG` and `I2C = None`. -/
def SBState.initial : SBState :=
  { internal := INTERNAL_CONFIG_initial, I2C := none }

/-- The slice of the firmware configuration dictionary that
`SmartBus.init` consults.  Each field is `none` when the corresponding key
is absent from the dictionary (the source guards every read with
`if key in config`). -/
structure SBConfig where
  SmartBus_enabled : Option Bool
  SmartBus_SDA : Option Int
  SmartBus_SCL : Option Int
  SmartBus_ID : Option Int
  SmartBus_Freq : Option Int
deriving DecidableEq

/-- Hardware environment for the machine-module operations `SmartBus.init`
performs.  `pinValid n` tells whether `Pin(n)` construction succeeds (the
MicroPython port raises `ValueError` on an out-of-range GPIO number);
`i2cOk` tells whether the `I2C` peripheral constructor succeeds; and
`scanOutcome` is the outcome of `I2C.scan()` (the responding addresses, or
an error if the scan raises). -/
structure Hardware where
  pinValid : Int → Bool
  i2cOk : Bool
  scanOutcome : Except String (List Int)

/-- Observable operations performed by `SmartBus.init`, in order.  The
`route` constructor is in the vocabulary so that "no routing of a
capability to a sink happens during initialization" is a statement about
this trace rather than a vacuity of the type. -/
inductive Effect where
  | pinSetup (pin : Int)
  | i2cSetup (busId : Int) (scl : Int) (sda : Int) (freq : Int)
  | busScan
  | route (capability : String) (target : String)
deriving DecidableEq

/-- Result of a call to `SmartBus.init`: the trace of hardware operations
performed, the module state after the call, and the exception that
propagated out of the call, if any.  Python dictionary mutations performed
before an exception persist, so the state is reported on every path. -/
structure InitResult where
  effects : List Effect
  state : SBState
  error : Option String
deriving DecidableEq

namespace SmartBus

/-- The five `if key in config` guards of `SmartBus.init`
(SmartBus/__init__.py lines 57-66), which overwrite the corresponding
`INTERNAL_CONFIG` entries in source order. -/
def updateInternal (ic0 : InternalConfig) (config : SBConfig) :
    InternalConfig :=
  let ic := match config.SmartBus_enabled with
            | some b => { ic0 with SmartBus_enabled := b }
            | none => ic0
  let ic := match config.SmartBus_SDA with
            | some v => { ic with SmartBus_SDA := v }
            | none => ic
  let ic := match config.SmartBus_SCL with
            | some v => { ic with SmartBus_SCL := v }
            | none => ic
  let ic := match config.SmartBus_ID with
            | some v => { ic with SmartBus_ID := v }
            | none => ic
  match config.SmartBus_Freq with
  | some v => { ic with SmartBus_Freq := v }
  | none => ic

/-- The hardware phase of `SmartBus.init` (SmartBus/__init__.py
lines 68-71), run with the already-updated `INTERNAL_CONFIG`: when the
effective `SmartBus_enabled` flag is true it builds `Pin(SCL)`, `Pin(SDA)`,
then the I2C peripheral on bus 1, then runs one bus scan.  The Python
assignment `I2C = i2c(...)` on line 69 has no `global I2C` declaration, so
it binds a function-local name; the module-level `I2C` global is never
written, which is why every path below carries `s.I2C` through
unchanged. -/
def initHardwarePhase (hw : Hardware) (s : SBState) (ic : InternalConfig) :
    InitResult :=
  let s' : SBState := { internal := ic, I2C := s.I2C }
  if ic.SmartBus_enabled then
    if hw.pinValid ic.SmartBus_SCL then
      if hw.pinValid ic.SmartBus_SDA then
        if hw.i2cOk then
          match hw.scanOutcome with
          | .ok _results =>
              { effects := [.pinSetup ic.SmartBus_SCL, .pinSetup ic.SmartBus_SDA,
                            .i2cSetup 1 ic.SmartBus_SCL ic.SmartBus_SDA ic.SmartBus_Freq,
                            .busScan]
                state := s'
                error := none }
          | .error e =>
              { effects := [.pinSetup ic.SmartBus_SCL, .pinSetup ic.SmartBus_SDA,
                            .i2cSetup 1 ic.SmartBus_SCL ic.SmartBus_SDA ic.SmartBus_Freq,
                            .busScan]
                state := s'
                error := some e }
        else
          { effects := [.pinSetup ic.SmartBus_SCL, .pinSetup ic.SmartBus_SDA]
            state := s'
            error := some "I2C peripheral construction failed" }
      else
        { effects := [.pinSetup ic.SmartBus_SCL]
          state := s'
          error := some "invalid SDA pin" }
    else
      { effects := []
        state := s'
        error := some "invalid SCL pin" }
  else
    { effects := [], state := s', error := none }

/-- Translation of `SmartBus.init` (SmartBus/__init__.py lines 54-71):
update `INTERNAL_CONFIG` from the config dictionary, then run the hardware
phase.  The `manifest` argument is accepted and never read, exactly as in
the source. -/
def init (hw : Hardware) (s : SBState) (config : SBConfig) (manifest : Json) :
    InitResult :=
  initHardwarePhase hw s (updateInternal s.internal config)

end SmartBus

/-! ## The main.py failure path around SmartBus initialization -/

/-- Translation of `blink` (main.py lines 333-343): an unconditional
`while True` loop that toggles the LED and sleeps.  The loop body contains
no `break` or `return`, so the function never returns normally; the fuel
argument counts loop iterations and the result type `Option Empty` records
that exhausting any finite fuel leaves the loop still running. -/
def blink : Nat → Bool → Option Empty
  | 0, _ => none
  | fuel + 1, flop => blink fuel (!flop)

/-- Marker for reaching the code in `main` after `init` returned, i.e. the
point from which the firmware goes on toward its control loop. -/
inductive MainPhase where
  | running
deriving DecidableEq

/-- Translation of the `init`-call slice of `main` (main.py lines 370-376).
`init` (main.py line 326) calls `SmartBus.init(config, manifest)` with no
surrounding `try`, so any exception it raises propagates to the
`try`/`except` in `main`, whose handler prints the error, plays a tune and
then calls `blink(0.25, led)` — the nonterminating loop above.  When
`SmartBus.init` does not raise, `main` proceeds (`some .running`). -/
def mainInitPhase (fuel : Nat) (hw : Hardware) (config : SBConfig)
    (manifest : Json) : Option MainPhase :=
  match (SmartBus.init hw SBState.initial config manifest).error with
  | none => some .running
  | some _ => (blink fuel false).map (fun e => e.elim)

/-- The property that `main` never gets past its initialization error
handler, no matter how long it runs: the firmware is locked up. -/
def mainLocksUp (hw : Hardware) (config : SBConfig) (manifest : Json) : Prop :=
  ∀ fuel, mainInitPhase fuel hw config manifest = none

/-- Hardware model of the Raspberry Pi Pico 2 target: GPIO numbers 0-29
exist and the peripherals behave; `Pin(n)` construction fails for any other
pin number.  Used as the concrete environment for witnesses. -/
def picoHardware : Hardware :=
  { pinValid := fun n => decide (0 ≤ n ∧ n ≤ 29)
    i2cOk := true
    scanOutcome := .ok [48] }

/-- A configuration whose `SmartBus_SCL` names a GPIO that does not exist
on the target, with SmartBus enabled: `Pin(99)` construction raises. -/
def badSclConfig : SBConfig :=
  { SmartBus_enabled := some true
    SmartBus_SDA := some 16
    SmartBus_SCL := some 99
    SmartBus_ID := some 26
    SmartBus_Freq := some 400000 }

/-- The SmartBus-relevant slice of the default firmware configuration from
`load_config` (main.py lines 84-92). -/
def defaultSBConfig : SBConfig :=
  { SmartBus_enabled := some true
    SmartBus_SDA := some 16
    SmartBus_SCL := some 17
    SmartBus_ID := some 26
    SmartBus_Freq := some 400000 }

/-! ## `is_safety_on` (main.py lines 443-454) -/

/-- Translation of `is_safety_on` (main.py lines 443-454) for one pin
reading: a reading of 0 reports the safety engaged, a reading of 1 reports
it disengaged, and any other reading falls through to the fail-safe
`return True`. -/
def is_safety_on (pinValue : Int) : Bool :=
  if pinValue = 0 then true
  else if pinValue = 1 then false
  else true

/-! ## Manifest Registry and Identification Sensor (spec sections 4.1-4.2)

The repository does not implement these components; they are modelled from
the specification. -/

/-- Modelled from the spec: the per-device `routes` mapping of a manifest
profile, keyed by the three documented targets. -/
structure Routes where
  to_firing_system : List String
  to_display : List String
  to_device : List String
deriving DecidableEq

/-- Modelled from the spec: a `DeviceProfile` from the manifest (spec
section 3) — name, role, nominal identification resistance, candidate bus
addresses, provided and consumed capabilities, and routing targets. -/
structure DeviceProfile where
  name : String
  role : String
  rid_bucket_ohms : Int
  i2c_addresses : List Int
  provides : List String
  consumes : List String
  routes : Routes
deriving DecidableEq

/-- Modelled from the spec: the Manifest Registry (spec section 4.1) — the
immutable catalog of profiles plus the `defaults` block and the explicitly
configured tolerance percentage for bucket matching (spec section 9 makes
the tolerance an explicit configuration value).  Resistances are embedded
as exact integer ohm values and all band arithmetic is carried out
multiplied through by 100, so no rounding is involved. -/
structure Registry where
  profiles : List DeviceProfile
  tolerancePct : Int
  mag_role_priority : List String
  max_devices : Nat

/-- Absolute distance from a resistance reading to a profile's nominal
bucket. -/
def bucketDistance (r : Int) (p : DeviceProfile) : Int :=
  |r - p.rid_bucket_ohms|

/-- Modelled from the spec: membership of a reading in a profile's
tolerance band — the distance to the bucket is no more than `tol` percent
of the bucket (stated multiplied through by 100). -/
def withinTolerance (tol r : Int) (p : DeviceProfile) : Bool :=
  bucketDistance r p * 100 ≤ p.rid_bucket_ohms * tol

/-- Strict interior of a profile's tolerance band. -/
def strictlyWithinTolerance (tol r : Int) (p : DeviceProfile) : Bool :=
  bucketDistance r p * 100 < p.rid_bucket_ohms * tol

/-- Comparison of two profiles by distance from a reading, the order
`candidates_for` sorts by. -/
def distLe (r : Int) (p q : DeviceProfile) : Prop :=
  bucketDistance r p ≤ bucketDistance r q

instance (r : Int) : DecidableRel (distLe r) :=
  fun _ _ => inferInstanceAs (Decidable (_ ≤ _))

instance (r : Int) : IsTotal DeviceProfile (distLe r) :=
  ⟨fun _ _ => le_total _ _⟩

instance (r : Int) : IsTrans DeviceProfile (distLe r) :=
  ⟨fun _ _ _ => le_trans⟩

/-- Modelled from the spec: `candidates_for` (spec section 4.1) — the
profiles whose bucket lies within the tolerance band of the reading,
paired with their distances and sorted by absolute distance ascending. -/
def candidates_for (reg : Registry) (r : Int) : List (DeviceProfile × Int) :=
  (List.insertionSort (distLe r)
      (reg.profiles.filter (withinTolerance reg.tolerancePct r))).map
    (fun p => (p, bucketDistance r p))

/-- Modelled from the spec: result of classification (spec section 4.2) —
a unique profile, `Unidentified`, or `Ambiguous` resolved to the nearest
candidate. -/
inductive Classification where
  | unidentified : Classification
  | identified : DeviceProfile → Classification
  | ambiguous : DeviceProfile → Classification
deriving DecidableEq

/-- Modelled from the spec: `classify` (spec section 4.2) — queries
`candidates_for`; zero candidates give `Unidentified`, exactly one gives
that profile, several give `Ambiguous` resolved by picking the nearest by
distance (the head of the distance-sorted candidate list). -/
def classify (reg : Registry) (r : Int) : Classification :=
  match candidates_for reg r with
  | [] => .unidentified
  | [(p, _)] => .identified p
  | (p, _) :: _ :: _ => .ambiguous p

/-- The `smartspine_v1` profile of the built-in default manifest. -/
def smartspineProfile : DeviceProfile :=
  { name := "smartspine_v1", role := "mag_spine", rid_bucket_ohms := 47000,
    i2c_addresses := [48],
    provides := ["ammo_level", "mag_id"],
    consumes := ["fire_mode", "blaster_state"],
    routes := { to_firing_system := ["ammo_level"],
                to_display := ["ammo_level", "mag_id"],
                to_device := [] } }

/-- The `smartmag_v1` profile of the built-in default manifest. -/
def smartmagProfile : DeviceProfile :=
  { name := "smartmag_v1", role := "mag", rid_bucket_ohms := 22000,
    i2c_addresses := [49],
    provides := ["ammo_level", "mag_id"],
    consumes := ["fire_mode", "blaster_state"],
    routes := { to_firing_system := ["ammo_level"],
                to_display := ["ammo_level", "mag_id"],
                to_device := [] } }

/-- The `barrel_chrono_v1` profile of the built-in default manifest. -/
def barrelChronoProfile : DeviceProfile :=
  { name := "barrel_chrono_v1", role := "barrel", rid_bucket_ohms := 33000,
    i2c_addresses := [80],
    provides := ["muzzle_velocity"],
    consumes := ["fire_mode", "blaster_state"],
    routes := { to_firing_system := [],
                to_display := ["muzzle_velocity"],
                to_device := ["blaster_state"] } }

/-- The `power_only` profile of the built-in default manifest. -/
def powerOnlyProfile : DeviceProfile :=
  { name := "power_only", role := "power_only", rid_bucket_ohms := 4700,
    i2c_addresses := [],
    provides := [], consumes := [],
    routes := { to_firing_system := [], to_display := [], to_device := [] } }

/-- The Registry corresponding to the built-in default manifest, with a
10 percent tolerance band (the tolerance of spec scenario 1). -/
def defaultRegistry : Registry :=
  { profiles := [smartspineProfile, smartmagProfile, barrelChronoProfile,
                 powerOnlyProfile],
    tolerancePct := 10,
    mag_role_priority := ["mag", "mag_spine"],
    max_devices := 4 }

/-- The default registry with a deliberately wide 40 percent tolerance,
under which 27000 ohms falls in both the `smartmag_v1` and the
`barrel_chrono_v1` bands — a concrete ambiguous configuration. -/
def wideToleranceRegistry : Registry :=
  { defaultRegistry with tolerancePct := 40 }

/-! ## Device Table and Conflict Resolver (spec sections 3, 4.4, 4.5) -/

/-- Modelled from the spec: a dynamic `DeviceInstance` (spec section 3) —
profile reference (by name plus role), the bus address resolved at probe
time, the discovery and last-seen timestamps, and the `active` flag the
Conflict Resolver maintains.  Instances held in the Device Table are the
bound ones. -/
structure DeviceInstance where
  profileName : String
  role : String
  boundAddress : Option Int
  discoveryTimestamp : Nat
  lastSeenTimestamp : Nat
  active : Bool
deriving DecidableEq

/-- Rank of a role in the ordered `role_priority` list: `some i` with `i`
the position of its first occurrence (highest priority first), `none` for
roles not treated as mutually exclusive. -/
def roleRank (pri : List String) (r : String) : Option Nat :=
  match pri with
  | [] => none
  | x :: rest => if x = r then some 0 else (roleRank rest r).map (· + 1)

/-- Whether an instance's role is subject to the mutual-exclusion policy,
i.e. appears in `role_priority`. -/
def exclusiveRole (pri : List String) (d : DeviceInstance) : Bool :=
  (roleRank pri d.role).isSome

/-- Pair every element of a list with its position, starting at `i`. -/
def enumFrom : Nat → List DeviceInstance → List (Nat × DeviceInstance)
  | _, [] => []
  | i, d :: rest => (i, d) :: enumFrom (i + 1) rest

/-- The indexed instances whose role is mutually exclusive. -/
def exclusiveMembers (pri : List String) (tbl : List DeviceInstance) :
    List (Nat × DeviceInstance) :=
  (enumFrom 0 tbl).filter (fun x => exclusiveRole pri x.2)

/-- Modelled from the spec: the Conflict Resolver's preference key (spec
section 4.5) — lexicographically, lowest `role_priority` rank first, then
earliest `discovery_timestamp`, then table position (the residual tie on
identical role and timestamp is broken by table order). -/
def winnerKey (pri : List String) (x : Nat × DeviceInstance) :
    Nat ×ₗ (Nat ×ₗ Nat) :=
  toLex ((roleRank pri x.2.role).getD 0,
         toLex (x.2.discoveryTimestamp, x.1))

/-- Position in the table of the instance the Conflict Resolver makes
authoritative among all instances with exclusive roles, when any exist. -/
def winnerIdx (pri : List String) (tbl : List DeviceInstance) : Option Nat :=
  ((exclusiveMembers pri tbl).argmin (winnerKey pri)).map (fun x => x.1)

/-- Set the `active` flags from position `i` on: an exclusive-role instance
is active exactly when it sits at the winning position, and every
non-exclusive-role instance is active independently. -/
def applyActives (w : Option Nat) (pri : List String) :
    Nat → List DeviceInstance → List DeviceInstance
  | _, [] => []
  | i, d :: rest =>
      (if exclusiveRole pri d then { d with active := decide (w = some i) }
       else { d with active := true })
        :: applyActives w pri (i + 1) rest

/-- Modelled from the spec: one Conflict Resolver pass (spec section 4.5)
over the bound instances — membership in `role_priority` is mutually
exclusive, the winner is the instance whose role ranks highest with ties
broken by earliest `discovery_timestamp`, every other exclusive-role
instance is demoted to `active = false` but stays bound, and roles absent
from `role_priority` are all active independently. -/
def conflictResolve (pri : List String) (tbl : List DeviceInstance) :
    List DeviceInstance :=
  applyActives (winnerIdx pri tbl) pri 0 tbl

/-- Forget the `active` flag of an instance (for stating that resolution
changes nothing else). -/
def eraseActive (d : DeviceInstance) : DeviceInstance :=
  { d with active := false }

/-- The predicate counted in the exclusivity bound: an active instance of
an exclusive role. -/
def activeExclusive (pri : List String) (d : DeviceInstance) : Bool :=
  exclusiveRole pri d && d.active

/-- The role-priority list of the built-in default manifest. -/
def demoPriority : List String :=
  ["mag", "mag_spine"]

/-- A bound `smartspine_v1` instance discovered at time 10 (spec
scenario 2). -/
def demoSpineInstance : DeviceInstance :=
  { profileName := "smartspine_v1", role := "mag_spine",
    boundAddress := some 48, discoveryTimestamp := 10,
    lastSeenTimestamp := 10, active := false }

/-- A bound `smartmag_v1` instance discovered later, at time 20 (spec
scenario 2). -/
def demoMagInstance : DeviceInstance :=
  { profileName := "smartmag_v1", role := "mag",
    boundAddress := some 49, discoveryTimestamp := 20,
    lastSeenTimestamp := 20, active := false }

/-- The two-instance Device Table of spec scenario 2. -/
def demoTable : List DeviceInstance :=
  [demoSpineInstance, demoMagInstance]

/-- A bound `barrel_chrono_v1` instance discovered at time 30. -/
def demoBarrelInstance : DeviceInstance :=
  { profileName := "barrel_chrono_v1", role := "barrel",
    boundAddress := some 80, discoveryTimestamp := 30,
    lastSeenTimestamp := 30, active := false }

/-! ## Device Table insertion, removal and the pending queue
(spec section 4.4) -/

/-- Modelled from the spec: the Device Table state (spec section 4.4) —
the bound instances plus the bounded FIFO queue of classified, probed
candidates waiting for a slot. -/
structure TableState where
  bound : List DeviceInstance
  pending : List DeviceInstance
deriving DecidableEq

/-- The empty Device Table the Discovery Loop starts from. -/
def emptyTable : TableState :=
  { bound := [], pending := [] }

/-- Modelled from the spec: insertion of a classified, probed candidate
(spec section 4.4) — bound while a slot is free, otherwise appended to the
tail of the pending FIFO queue instead of the Device Table. -/
def insertCandidate (mx : Nat) (s : TableState) (c : DeviceInstance) :
    TableState :=
  if s.bound.length < mx then { s with bound := s.bound ++ [c] }
  else { s with pending := s.pending ++ [c] }

/-- Modelled from the spec: removal after `W` failed liveness re-probes
(spec section 4.4) — the failed instance leaves the Device Table, and when
that frees a slot the oldest pending candidate is promoted through
`Bound`. -/
def removeInstance (mx : Nat) (s : TableState)
    (failed : DeviceInstance → Bool) : TableState :=
  let bound' := s.bound.filter (fun d => !(failed d))
  if bound'.length < mx then
    match s.pending with
    | [] => { bound := bound', pending := [] }
    | c :: rest => { bound := bound' ++ [c], pending := rest }
  else
    { bound := bound', pending := s.pending }

/-- A Device Table at capacity 2 reached by inserting the spine and the
mag instance. -/
def demoFullTable : TableState :=
  insertCandidate 2 (insertCandidate 2 emptyTable demoSpineInstance)
    demoMagInstance

/-- A Device Table at capacity 2 with the barrel candidate queued. -/
def demoQueuedTable : TableState :=
  { bound := [demoSpineInstance, demoMagInstance],
    pending := [demoBarrelInstance] }

/-- The liveness-failure predicate singling out the spine instance. -/
def demoSpineFailed (d : DeviceInstance) : Bool :=
  d.profileName == "smartspine_v1"

/-- The Device Table states the Discovery Loop can reach: start empty,
then any interleaving of candidate insertions and removals. -/
inductive ReachableTable (mx : Nat) : TableState → Prop where
  | init : ReachableTable mx emptyTable
  | insert (s : TableState) (c : DeviceInstance) :
      ReachableTable mx s → ReachableTable mx (insertCandidate mx s c)
  | remove (s : TableState) (failed : DeviceInstance → Bool) :
      ReachableTable mx s → ReachableTable mx (removeInstance mx s failed)

/-! ## Routing Engine (spec section 4.6) -/

/-- Modelled from the spec: the three sink targets a capability can be
routed to. -/
inductive RouteTarget where
  | toFiringSystem : RouteTarget
  | toDisplay : RouteTarget
  | toDevice : RouteTarget
deriving DecidableEq

/-- Modelled from the spec: a message the Routing Engine hands to a sink —
either a forwarded capability value from a source device, or a retraction
notice (a cleared value) for a capability. -/
inductive SinkMsg where
  | forward (target : RouteTarget) (capability : String) (source : String)
      (value : Int)
  | retraction (target : RouteTarget) (capability : String)
deriving DecidableEq

/-- The targets a profile's `routes` mapping configures for a capability,
in the documented key order. -/
def routesTargets (r : Routes) (cap : String) : List RouteTarget :=
  (if r.to_firing_system.contains cap then [RouteTarget.toFiringSystem] else []) ++
  (if r.to_display.contains cap then [RouteTarget.toDisplay] else []) ++
  (if r.to_device.contains cap then [RouteTarget.toDevice] else [])

/-- Modelled from the spec: a `publish` call into the Routing Engine (spec
section 4.6) — the reporting device, its profile's routes, whether the
Conflict Resolver currently has it active, and the fresh capability
value. -/
structure PublishReq where
  source : String
  routes : Routes
  active : Bool
  capability : String
  value : Int
deriving DecidableEq

/-- Sink messages one publish call produces: a forward to every configured
target when the device is active, nothing (silent suppression) when it is
not. -/
def publishMsgs (p : PublishReq) : List SinkMsg :=
  if p.active then
    (routesTargets p.routes p.capability).map
      (fun t => .forward t p.capability p.source p.value)
  else []

/-- Delivery records one publish call adds: which (source, target,
capability) triples were forwarded. -/
def publishRecords (p : PublishReq) : List (String × RouteTarget × String) :=
  if p.active then
    (routesTargets p.routes p.capability).map
      (fun t => (p.source, t, p.capability))
  else []

/-- Modelled from the spec: Routing Engine state — the record of which
(source, target, capability) triples have been forwarded so far, and the
retraction notices queued by removals and still owed to sinks. -/
structure RoutingState where
  delivered : List (String × RouteTarget × String)
  pendingRetractions : List (RouteTarget × String)
deriving DecidableEq

/-- Modelled from the spec: removal notification (spec section 4.6) — on
an instance's removal the engine queues a retraction notice for every
(target, capability) pair that previously received values from it, and
drops its delivery records. -/
def removeDevice (s : RoutingState) (dev : String) : RoutingState :=
  { delivered := s.delivered.filter (fun rec => !(rec.1 == dev))
    pendingRetractions := s.pendingRetractions ++
      (s.delivered.filter (fun rec => rec.1 == dev)).map
        (fun rec => (rec.2.1, rec.2.2)) }

/-- Modelled from the spec: one Routing Engine tick — all owed retraction
notices are delivered first, then the tick's publish calls are forwarded;
the new state records the fresh deliveries and clears the retraction
queue. -/
def routingTick (s : RoutingState) (reqs : List PublishReq) :
    List SinkMsg × RoutingState :=
  (s.pendingRetractions.map (fun tc => .retraction tc.1 tc.2) ++
     reqs.flatMap publishMsgs,
   { delivered := s.delivered ++ reqs.flatMap publishRecords
     pendingRetractions := [] })

/-- Whether a sink message is a retraction notice. -/
def SinkMsg.isRetraction : SinkMsg → Bool
  | .retraction _ _ => true
  | _ => false

/-- A Routing Engine state in which the display previously received
`muzzle_velocity` from the `barrel_chrono_v1` device (spec scenario 6). -/
def demoRoutingState : RoutingState :=
  { delivered := [("barrel_chrono_v1", RouteTarget.toDisplay,
      "muzzle_velocity")],
    pendingRetractions := [] }

/-- A publish call from a second chronograph reporting `muzzle_velocity`
on the tick after the first chronograph was removed. -/
def demoChronoReq : PublishReq :=
  { source := "barrel_chrono_v2", routes := barrelChronoProfile.routes,
    active := true, capability := "muzzle_velocity", value := 95 }

/-! ## Helper lemmas -/

/-- The `blink` loop never returns, whatever the fuel and LED phase. -/
theorem blink_eq_none : ∀ (fuel : Nat) (flop : Bool), blink fuel flop = none := by
  intro fuel
  induction fuel with
  | zero => intro _; rfl
  | succ n ih => intro flop; exact ih (!flop)

/-- Every path of the hardware phase carries the module-level `I2C` global
through unchanged. -/
theorem initHardwarePhase_I2C (hw : Hardware) (s : SBState)
    (ic : InternalConfig) : (SmartBus.initHardwarePhase hw s ic).state.I2C = s.I2C := by
  unfold SmartBus.initHardwarePhase
  repeat' split
  all_goals rfl

/-- The effect trace of the hardware phase takes one of four shapes, each
consisting only of pin setup, one I2C peripheral setup and at most one bus
scan. -/
theorem initHardwarePhase_effects_shape (hw : Hardware) (s : SBState)
    (ic : InternalConfig) :
    (SmartBus.initHardwarePhase hw s ic).effects = [] ∨
    (SmartBus.initHardwarePhase hw s ic).effects =
      [.pinSetup ic.SmartBus_SCL] ∨
    (SmartBus.initHardwarePhase hw s ic).effects =
      [.pinSetup ic.SmartBus_SCL, .pinSetup ic.SmartBus_SDA] ∨
    (SmartBus.initHardwarePhase hw s ic).effects =
      [.pinSetup ic.SmartBus_SCL, .pinSetup ic.SmartBus_SDA,
       .i2cSetup 1 ic.SmartBus_SCL ic.SmartBus_SDA ic.SmartBus_Freq,
       .busScan] := by
  unfold SmartBus.initHardwarePhase
  repeat' split
  all_goals simp

/-- With the effective enabled flag false, the hardware phase does
nothing. -/
theorem initHardwarePhase_disabled (hw : Hardware) (s : SBState)
    (ic : InternalConfig) (h : ic.SmartBus_enabled = false) :
    (SmartBus.initHardwarePhase hw s ic).effects = [] := by
  unfold SmartBus.initHardwarePhase
  rw [h]
  rfl

/-- The config updates never turn the enabled flag into anything but the
configured value, and leave it alone when the key is absent. -/
theorem updateInternal_enabled (ic : InternalConfig) (c : SBConfig) :
    (SmartBus.updateInternal ic c).SmartBus_enabled =
      c.SmartBus_enabled.getD ic.SmartBus_enabled := by
  unfold SmartBus.updateInternal
  repeat' split
  all_goals simp_all

/-- A duplicate-free list whose only element satisfying the predicate is
`p` filters down to exactly `[p]`. -/
theorem filter_eq_singleton_of_unique {l : List DeviceProfile}
    {p : DeviceProfile} {pred : DeviceProfile → Bool} (hnd : l.Nodup)
    (hmem : p ∈ l) (hp : pred p = true)
    (hothers : ∀ q ∈ l, q ≠ p → pred q = false) :
    l.filter pred = [p] := by
  induction l with
  | nil => cases hmem
  | cons d rest ih =>
      rcases List.nodup_cons.mp hnd with ⟨hd, hrest⟩
      rcases List.mem_cons.mp hmem with hdp | hprest
      · subst hdp
        have hrestnil : rest.filter pred = [] := by
          rw [List.filter_eq_nil_iff]
          intro q hq
          have hqne : q ≠ p := fun he => hd (he ▸ hq)
          simp [hothers q (List.mem_cons_of_mem _ hq) hqne]
        simp [List.filter_cons, hp, hrestnil]
      · have hdne : d ≠ p := fun he => hd (by rw [he]; exact hprest)
        have hdf : pred d = false := hothers d (List.mem_cons_self d rest) hdne
        rw [List.filter_cons_of_neg (by simp [hdf])]
        exact ih hrest hprest fun q hq hqne =>
          hothers q (List.mem_cons_of_mem _ hq) hqne

/-- Two distinct members force a list to have at least two elements. -/
theorem two_le_length_of_two_members {l : List DeviceProfile}
    {p q : DeviceProfile} (hp : p ∈ l) (hq : q ∈ l) (hne : p ≠ q) :
    2 ≤ l.length := by
  have hp' : p ∈ l.erase q := (List.mem_erase_of_ne hne).mpr hp
  have h1 : 1 ≤ (l.erase q).length := List.length_pos_of_mem hp'
  have h2 : (l.erase q).length = l.length - 1 := List.length_erase_of_mem hq
  omega

/-- Strict band membership implies band membership. -/
theorem withinTolerance_of_strict {tol r : Int} {p : DeviceProfile}
    (h : strictlyWithinTolerance tol r p = true) :
    withinTolerance tol r p = true := by
  unfold strictlyWithinTolerance at h
  unfold withinTolerance
  exact decide_eq_true (le_of_lt (of_decide_eq_true h))

/-- A role listed in `role_priority` has a rank. -/
theorem roleRank_isSome_of_mem {r : String} {pri : List String}
    (h : r ∈ pri) : (roleRank pri r).isSome = true := by
  induction pri with
  | nil => cases h
  | cons x rest ih =>
      unfold roleRank
      by_cases hx : x = r
      · simp [hx]
      · have hmem : r ∈ rest := by
          rcases List.mem_cons.mp h with he | hm
          · exact absurd he.symm hx
          · exact hm
        have hs := ih hmem
        simp only [if_neg hx]
        cases hr : roleRank rest r with
        | none => rw [hr] at hs; cases hs
        | some v => simp

/-- Changing only the `active` flag does not change whether a role is
exclusive. -/
theorem exclusiveRole_update_active (pri : List String) (d : DeviceInstance)
    (b : Bool) : exclusiveRole pri { d with active := b } = exclusiveRole pri d :=
  rfl

/-- Reading back the `active` flag just written. -/
theorem active_update_active (d : DeviceInstance) (b : Bool) :
    ({ d with active := b }).active = b :=
  rfl

/-- Setting the `active` flags preserves the table length. -/
theorem applyActives_length (w : Option Nat) (pri : List String) :
    ∀ (i : Nat) (l : List DeviceInstance),
      (applyActives w pri i l).length = l.length := by
  intro i l
  induction l generalizing i with
  | nil => rfl
  | cons d rest ih => simp [applyActives, ih]

/-- Element description of `applyActives`: position `k` holds the original
instance with its `active` flag set according to the winner position. -/
theorem applyActives_get (w : Option Nat) (pri : List String) :
    ∀ (i : Nat) (l : List DeviceInstance) (k : Nat) (hk : k < l.length)
      (hk2 : k < (applyActives w pri i l).length),
      (applyActives w pri i l).get ⟨k, hk2⟩ =
        (if exclusiveRole pri (l.get ⟨k, hk⟩) then
          { l.get ⟨k, hk⟩ with active := decide (w = some (i + k)) }
         else { l.get ⟨k, hk⟩ with active := true }) := by
  intro i l
  induction l generalizing i with
  | nil => intro k hk; cases hk
  | cons d rest ih =>
      intro k hk hk2
      cases k with
      | zero => simp [applyActives]
      | succ k' =>
          have hk' : k' < rest.length := Nat.lt_of_succ_lt_succ hk
          have hk2' : k' < (applyActives w pri (i + 1) rest).length := by
            rw [applyActives_length]
            exact hk'
          have := ih (i + 1) k' hk' hk2'
          simp only [applyActives, List.get_cons_succ]
          rw [this]
          have harith : i + 1 + k' = i + (k' + 1) := by omega
          rw [harith]

/-- Membership description of `enumFrom`. -/
theorem mem_enumFrom : ∀ (n : Nat) (l : List DeviceInstance)
    (x : Nat × DeviceInstance),
    x ∈ enumFrom n l ↔
      ∃ k, ∃ hk : k < l.length, x.1 = n + k ∧ x.2 = l.get ⟨k, hk⟩ := by
  intro n l
  induction l generalizing n with
  | nil =>
      intro x
      constructor
      · intro hx; cases hx
      · rintro ⟨k, hk, _⟩; cases hk
  | cons d rest ih =>
      intro x
      constructor
      · intro hx
        rcases List.mem_cons.mp hx with he | hm
        · exact ⟨0, Nat.succ_pos _, by simp [he], by simp [he]⟩
        · rcases (ih (n + 1) x).mp hm with ⟨k, hk, h1, h2⟩
          exact ⟨k + 1, Nat.succ_lt_succ hk, by omega, by simpa using h2⟩
      · rintro ⟨k, hk, h1, h2⟩
        cases k with
        | zero =>
            have : x = (n, d) := by
              cases x
              simp at h1 h2
              simp [h1, h2]
            rw [this]
            exact List.mem_cons_self _ _
        | succ k' =>
            refine List.mem_cons_of_mem _ ((ih (n + 1) x).mpr ?_)
            exact ⟨k', Nat.lt_of_succ_lt_succ hk, by omega, by simpa using h2⟩

/-- Membership description of `exclusiveMembers`: the indexed instances at
valid positions whose role is exclusive. -/
theorem mem_exclusiveMembers (pri : List String) (tbl : List DeviceInstance)
    (x : Nat × DeviceInstance) :
    x ∈ exclusiveMembers pri tbl ↔
      (∃ hk : x.1 < tbl.length, x.2 = tbl.get ⟨x.1, hk⟩) ∧
        exclusiveRole pri x.2 = true := by
  unfold exclusiveMembers
  rw [List.mem_filter, mem_enumFrom]
  constructor
  · rintro ⟨⟨k, hk, h1, h2⟩, hex⟩
    have hx1 : x.1 = k := by omega
    subst hx1
    exact ⟨⟨hk, h2⟩, hex⟩
  · rintro ⟨⟨hk, h2⟩, hex⟩
    exact ⟨⟨x.1, hk, by omega, h2⟩, hex⟩

/-- What a winner position means: it is a valid position holding an
exclusive-role instance whose preference key is minimal among all
exclusive-role members. -/
theorem winnerIdx_spec (pri : List String) (tbl : List DeviceInstance)
    (k : Nat) (h : winnerIdx pri tbl = some k) :
    ∃ hk : k < tbl.length,
      exclusiveRole pri (tbl.get ⟨k, hk⟩) = true ∧
      ∀ x ∈ exclusiveMembers pri tbl,
        winnerKey pri (k, tbl.get ⟨k, hk⟩) ≤ winnerKey pri x := by
  unfold winnerIdx at h
  rcases Option.map_eq_some'.mp h with ⟨m, hm, hm1⟩
  have hmem : m ∈ exclusiveMembers pri tbl :=
    List.argmin_mem (show m ∈ (exclusiveMembers pri tbl).argmin (winnerKey pri) by
      rw [hm]; rfl)
  rcases (mem_exclusiveMembers pri tbl m).mp hmem with ⟨⟨hk, h2⟩, hex⟩
  subst hm1
  refine ⟨hk, by rw [← h2]; exact hex, ?_⟩
  intro x hx
  have hxle : winnerKey pri m ≤ winnerKey pri x :=
    List.le_of_mem_argmin hx (show m ∈ (exclusiveMembers pri tbl).argmin (winnerKey pri) by
      rw [hm]; rfl)
  have hmx : (m.1, tbl.get ⟨m.1, hk⟩) = m := by
    cases m
    simp at h2 ⊢
    rw [h2]
  rw [hmx]
  exact hxle

/-- With no winner, `applyActives` activates no exclusive-role
instance. -/
theorem applyActives_countP_none (pri : List String) :
    ∀ (i : Nat) (l : List DeviceInstance),
      (applyActives none pri i l).countP (activeExclusive pri) = 0 := by
  intro i l
  induction l generalizing i with
  | nil => rfl
  | cons d rest ih =>
      by_cases hex : exclusiveRole pri d = true <;>
        simp [applyActives, List.countP_cons, ih, activeExclusive, hex,
          exclusiveRole_update_active, active_update_active]

/-- With a winner position below the running index, `applyActives`
activates no exclusive-role instance. -/
theorem applyActives_countP_past (pri : List String) (n : Nat) :
    ∀ (i : Nat) (l : List DeviceInstance), n < i →
      (applyActives (some n) pri i l).countP (activeExclusive pri) = 0 := by
  intro i l
  induction l generalizing i with
  | nil => intro _; rfl
  | cons d rest ih =>
      intro hni
      have hne : ¬(n = i) := by omega
      by_cases hex : exclusiveRole pri d = true <;>
        simp [applyActives, List.countP_cons, ih (i + 1) (by omega),
          activeExclusive, hex, hne, exclusiveRole_update_active,
          active_update_active]

/-- Unpacking a preference-key comparison: the winner's role rank is
strictly better, or ranks tie and the winner's discovery timestamp is no
later. -/
theorem winnerKey_le_unpack (pri : List String) (k j : Nat)
    (dk dj : DeviceInstance)
    (h : winnerKey pri (k, dk) ≤ winnerKey pri (j, dj))
    (a b : Nat) (hra : roleRank pri dk.role = some a)
    (hrb : roleRank pri dj.role = some b) :
    a < b ∨ (a = b ∧ dk.discoveryTimestamp ≤ dj.discoveryTimestamp) := by
  unfold winnerKey at h
  simp only [hra, hrb, Option.getD_some] at h
  rw [Prod.Lex.le_iff] at h
  simp only at h
  rcases h with hlt | ⟨heq, hinner⟩
  · exact Or.inl hlt
  · rw [Prod.Lex.le_iff] at hinner
    simp only at hinner
    rcases hinner with hts | ⟨hts, _⟩
    · exact Or.inr ⟨heq, le_of_lt hts⟩
    · exact Or.inr ⟨heq, le_of_eq hts⟩

/-- At most one exclusive-role instance is active after the flags are
set. -/
theorem applyActives_countP_le_one (pri : List String) (w : Option Nat) :
    ∀ (i : Nat) (l : List DeviceInstance),
      (applyActives w pri i l).countP (activeExclusive pri) ≤ 1 := by
  cases w with
  | none =>
      intro i l
      rw [applyActives_countP_none]
      omega
  | some n =>
      intro i l
      induction l generalizing i with
      | nil => simp [applyActives, List.countP_nil]
      | cons d rest ih =>
          by_cases hni : n = i
          · subst hni
            have hrest : (applyActives (some n) pri (n + 1) rest).countP
                (activeExclusive pri) = 0 :=
              applyActives_countP_past pri n (n + 1) rest (by omega)
            by_cases hex : exclusiveRole pri d = true <;>
              simp [applyActives, List.countP_cons, hrest, activeExclusive,
                hex, exclusiveRole_update_active, active_update_active]
          · by_cases hex : exclusiveRole pri d = true <;>
              · simp [applyActives, List.countP_cons, activeExclusive, hex,
                  hni, exclusiveRole_update_active, active_update_active]
                exact ih (i + 1)

/-! ## Claims -/

/-- C1: for every load attempt in which the SmartBus manifest source is
missing, malformed, or otherwise fails to parse (any exception during
open or json.load), `load_SmartBus_config` returns the built-in hard-coded
default manifest instead of raising; on a successful parse it returns the
parsed value, so manifest loading never aborts the caller. -/
theorem load_SmartBus_config_never_fails :
    (∀ e : String, load_SmartBus_config (.error e) = defaultSmartBusManifest) ∧
    (∀ j : Json, load_SmartBus_config (.ok j) = j) :=
  ⟨fun _ => rfl, fun _ => rfl⟩

/-- C10: for every pin reading, `is_safety_on` returns `false` if and only
if the pin reads 1; a reading of 0 or any other value reports the safety
as engaged (fail-safe default). -/
theorem is_safety_on_false_iff_reads_one :
    ∀ v : Int, (is_safety_on v = false ↔ v = 1) := by
  intro v
  unfold is_safety_on
  by_cases h0 : v = 0
  · simp [h0]
  · by_cases h1 : v = 1 <;> simp [h0, h1]

/-- C4 (counterexample): the built-in default manifest returned by
`load_SmartBus_config` does not, at top level, conform to the documented
manifest format — it has no top-level `devices` list (its single key is
`smartbus`). -/
theorem defaultManifest_lacks_top_level_devices :
    conformsManifestFormat defaultSmartBusManifest = false := by decide

/-- C4 (amended): the built-in default manifest conforms to the documented
manifest format one level down — it is an object with a single `smartbus`
key whose value has a `devices` list whose every entry carries `name`,
`role`, `rid_bucket_ohms`, `i2c_addresses`, `provides`, `consumes` and a
`routes` object keyed by the three documented targets, plus a `defaults`
object with `mag_role_priority` and `max_devices`, with all profile names
unique. -/
theorem defaultManifest_conforms_under_smartbus_key :
    conformsUnderSmartbusKey defaultSmartBusManifest = true := by decide

/-- C9: for every hardware environment, config and manifest input,
`SmartBus.init` leaves the module-level `SmartBus.I2C` global unchanged,
and in particular calling it in the module's initial state leaves `I2C`
equal to `None`: the handle built on line 69 is bound to a function-local
name only. -/
theorem SmartBus_init_I2C_global_unchanged :
    ∀ (hw : Hardware) (c : SBConfig) (m : Json),
      (∀ s : SBState, (SmartBus.init hw s c m).state.I2C = s.I2C) ∧
      (SmartBus.init hw SBState.initial c m).state.I2C = none := by
  intro hw c m
  have h : ∀ s : SBState, (SmartBus.init hw s c m).state.I2C = s.I2C :=
    fun s => initHardwarePhase_I2C hw s (SmartBus.updateInternal s.internal c)
  exact ⟨h, h SBState.initial⟩

/-- C3: for every hardware environment, module state, config and manifest
input, `SmartBus.init` is independent of the manifest (so it never reads
any profile's `routes`), its effect trace never contains a routing of a
capability to a sink, the trace is one of the four shapes consisting only
of pin setup, one I2C peripheral setup and at most a single bus scan, and
when the config disables SmartBus the trace is empty. -/
theorem SmartBus_init_only_configures_and_scans :
    ∀ (hw : Hardware) (s : SBState) (c : SBConfig) (m m' : Json),
      SmartBus.init hw s c m = SmartBus.init hw s c m' ∧
      (∀ cap tgt, Effect.route cap tgt ∉ (SmartBus.init hw s c m).effects) ∧
      (∃ a b f, (SmartBus.init hw s c m).effects = [] ∨
        (SmartBus.init hw s c m).effects = [.pinSetup a] ∨
        (SmartBus.init hw s c m).effects = [.pinSetup a, .pinSetup b] ∨
        (SmartBus.init hw s c m).effects =
          [.pinSetup a, .pinSetup b, .i2cSetup 1 a b f, .busScan]) ∧
      (c.SmartBus_enabled = some false →
        (SmartBus.init hw s c m).effects = []) := by
  intro hw s c m m'
  refine ⟨rfl, ?_, ?_, ?_⟩
  · intro cap tgt
    rcases initHardwarePhase_effects_shape hw s (SmartBus.updateInternal s.internal c) with
      h | h | h | h <;>
      (show Effect.route cap tgt ∉ (SmartBus.initHardwarePhase hw s
        (SmartBus.updateInternal s.internal c)).effects; rw [h]; simp)
  · exact ⟨_, _, _, initHardwarePhase_effects_shape hw s (SmartBus.updateInternal s.internal c)⟩
  · intro hdis
    refine initHardwarePhase_disabled hw s _ ?_
    rw [updateInternal_enabled, hdis]
    rfl

/-- C3 (witness): on the Pico hardware with the default configuration, no
capability is routed to a sink during initialization, and disabling
SmartBus yields an empty effect trace. -/
theorem SmartBus_init_only_configures_and_scans_witness :
    Effect.route "ammo_level" "to_display" ∉
      (SmartBus.init picoHardware SBState.initial defaultSBConfig
        defaultSmartBusManifest).effects ∧
    (SmartBus.init picoHardware SBState.initial
      { defaultSBConfig with SmartBus_enabled := some false }
      defaultSmartBusManifest).effects = [] :=
  ⟨(SmartBus_init_only_configures_and_scans picoHardware SBState.initial
      defaultSBConfig defaultSmartBusManifest defaultSmartBusManifest).2.1
      "ammo_level" "to_display",
   (SmartBus_init_only_configures_and_scans picoHardware SBState.initial
      { defaultSBConfig with SmartBus_enabled := some false }
      defaultSmartBusManifest defaultSmartBusManifest).2.2.2 rfl⟩

/-- C2 (counterexample): with SmartBus enabled and `SmartBus_SCL`
configured to GPIO 99, which does not exist on the Pico target, the
`ValueError` raised by `Pin(99)` propagates out of `SmartBus.init` (so a
SmartBus failure does escape the subsystem boundary), and `main`'s
exception handler then runs `blink` forever: the firmware is locked up and
the control loop never starts, contradicting the claim that no SmartBus
failure path leads past the boundary or to a lockup. -/
theorem smartbus_failure_escapes_and_locks_up :
    (SmartBus.init picoHardware SBState.initial badSclConfig
      defaultSmartBusManifest).error.isSome = true ∧
    mainLocksUp picoHardware badSclConfig defaultSmartBusManifest := by
  constructor
  · decide
  · intro fuel
    unfold mainInitPhase
    rw [show (SmartBus.init picoHardware SBState.initial badSclConfig
          defaultSmartBusManifest).error = some "invalid SCL pin" by decide]
    rw [blink_eq_none]
    rfl

/-- C2 (amended): an exception raised during SmartBus initialization
always propagates out of `SmartBus.init` into `main`'s handler; the
handler catches it (so the exception does not escape `main`) but then
enters the infinite `blink` loop, so every SmartBus initialization failure
locks up the firmware — the control loop never starts — instead of merely
leaving the feature unavailable. -/
theorem smartbus_init_error_blinks_forever :
    ∀ (hw : Hardware) (c : SBConfig) (m : Json),
      (SmartBus.init hw SBState.initial c m).error.isSome = true →
      mainLocksUp hw c m := by
  intro hw c m herr fuel
  unfold mainInitPhase
  cases he : (SmartBus.init hw SBState.initial c m).error with
  | none => rw [he] at herr; simp at herr
  | some e => rw [blink_eq_none]; rfl

/-- C2 (witness): the amended statement applied to the concrete bad-SCL
configuration on the Pico hardware. -/
theorem smartbus_init_error_blinks_forever_witness :
    mainLocksUp picoHardware badSclConfig defaultSmartBusManifest :=
  smartbus_init_error_blinks_forever picoHardware badSclConfig
    defaultSmartBusManifest (by decide)

/-- C7: for every registry with pairwise-distinct profile names and every
resistance reading, classification behaves as specified: with no profile's
band containing the reading it returns `Unidentified`; with the reading
strictly inside exactly one profile's band and outside every other band it
returns that profile; and with at least two distinct in-band profiles it
returns `Ambiguous` resolved to an in-band profile of minimal distance. -/
theorem classify_band_membership (reg : Registry) (r : Int) :
    ((∀ q ∈ reg.profiles, withinTolerance reg.tolerancePct r q = false) →
      classify reg r = .unidentified) ∧
    (∀ p, (reg.profiles.map DeviceProfile.name).Nodup → p ∈ reg.profiles →
      strictlyWithinTolerance reg.tolerancePct r p = true →
      (∀ q ∈ reg.profiles, q ≠ p →
        withinTolerance reg.tolerancePct r q = false) →
      classify reg r = .identified p) ∧
    (∀ p q, p ∈ reg.profiles → q ∈ reg.profiles → p ≠ q →
      withinTolerance reg.tolerancePct r p = true →
      withinTolerance reg.tolerancePct r q = true →
      ∃ w, classify reg r = .ambiguous w ∧ w ∈ reg.profiles ∧
        withinTolerance reg.tolerancePct r w = true ∧
        ∀ q' ∈ reg.profiles, withinTolerance reg.tolerancePct r q' = true →
          bucketDistance r w ≤ bucketDistance r q') := by
  refine ⟨?_, ?_, ?_⟩
  · intro hnone
    have hfilter : reg.profiles.filter (withinTolerance reg.tolerancePct r) = [] := by
      rw [List.filter_eq_nil_iff]
      intro a ha
      simp [hnone a ha]
    unfold classify candidates_for
    rw [hfilter]
    rfl
  · intro p hnd hpmem hps hothers
    have hvalNodup : reg.profiles.Nodup := List.Nodup.of_map DeviceProfile.name hnd
    have hfilter : reg.profiles.filter (withinTolerance reg.tolerancePct r) = [p] :=
      filter_eq_singleton_of_unique hvalNodup hpmem (withinTolerance_of_strict hps)
        hothers
    unfold classify candidates_for
    rw [hfilter]
    rfl
  · intro p q hpmem hqmem hne hpw hqw
    have hpF : p ∈ reg.profiles.filter (withinTolerance reg.tolerancePct r) :=
      List.mem_filter.mpr ⟨hpmem, hpw⟩
    have hqF : q ∈ reg.profiles.filter (withinTolerance reg.tolerancePct r) :=
      List.mem_filter.mpr ⟨hqmem, hqw⟩
    have hlen : 2 ≤ (reg.profiles.filter (withinTolerance reg.tolerancePct r)).length :=
      two_le_length_of_two_members hpF hqF hne
    have hperm := List.perm_insertionSort (distLe r)
      (reg.profiles.filter (withinTolerance reg.tolerancePct r))
    have hsorted := List.sorted_insertionSort (distLe r)
      (reg.profiles.filter (withinTolerance reg.tolerancePct r))
    have hslen : 2 ≤ (List.insertionSort (distLe r)
        (reg.profiles.filter (withinTolerance reg.tolerancePct r))).length := by
      rw [hperm.length_eq]
      exact hlen
    obtain ⟨w, w2, tail2, hsw⟩ : ∃ w w2 tail2,
        List.insertionSort (distLe r)
          (reg.profiles.filter (withinTolerance reg.tolerancePct r)) =
          w :: w2 :: tail2 := by
      cases hs2 : List.insertionSort (distLe r)
          (reg.profiles.filter (withinTolerance reg.tolerancePct r)) with
      | nil => rw [hs2] at hslen; simp at hslen
      | cons a t =>
          cases ht : t with
          | nil => rw [hs2] at hslen; simp [ht] at hslen
          | cons b t2 => exact ⟨a, b, t2, rfl⟩
    have hwF : w ∈ reg.profiles.filter (withinTolerance reg.tolerancePct r) := by
      refine hperm.mem_iff.mp ?_
      rw [hsw]
      exact List.mem_cons_self w (w2 :: tail2)
    refine ⟨w, ?_, (List.mem_filter.mp hwF).1, (List.mem_filter.mp hwF).2, ?_⟩
    · unfold classify candidates_for
      rw [hsw]
      rfl
    · intro q' hq'mem hq'w
      have hq'F : q' ∈ reg.profiles.filter (withinTolerance reg.tolerancePct r) :=
        List.mem_filter.mpr ⟨hq'mem, hq'w⟩
      have hq'S : q' ∈ w :: w2 :: tail2 := by
        rw [← hsw]
        exact hperm.mem_iff.mpr hq'F
      rcases List.mem_cons.mp hq'S with he | hrest
      · rw [he]
      · have hws : List.Sorted (distLe r) (w :: w2 :: tail2) := by
          rw [← hsw]
          exact hsorted
        exact List.rel_of_sorted_cons hws q' hrest

/-- C7 (witness): with the default registry at 10 percent tolerance,
99000 ohms matches nothing and 47000 ohms identifies `smartspine_v1`
uniquely; with the tolerance widened to 40 percent, 27000 ohms falls in
two bands and classification resolves the ambiguity to a nearest in-band
profile. -/
theorem classify_band_membership_witness :
    classify defaultRegistry 99000 = .unidentified ∧
    classify defaultRegistry 47000 = .identified smartspineProfile ∧
    (∃ w, classify wideToleranceRegistry 27000 = .ambiguous w ∧
      w ∈ wideToleranceRegistry.profiles ∧
      withinTolerance wideToleranceRegistry.tolerancePct 27000 w = true ∧
      ∀ q' ∈ wideToleranceRegistry.profiles,
        withinTolerance wideToleranceRegistry.tolerancePct 27000 q' = true →
          bucketDistance 27000 w ≤ bucketDistance 27000 q') :=
  ⟨(classify_band_membership defaultRegistry 99000).1 (by decide),
   (classify_band_membership defaultRegistry 47000).2.1 smartspineProfile
     (by decide) (by decide) (by decide) (by decide),
   (classify_band_membership wideToleranceRegistry 27000).2.2
     smartmagProfile barrelChronoProfile (by decide) (by decide) (by decide)
     (by decide) (by decide)⟩

/-- C5: after a Conflict Resolver pass, the Device Table keeps its length
with each instance unchanged apart from its `active` flag; for each role
listed in `role_priority` at most one instance with that role is active;
any active exclusive-role instance ranks no worse than every other
exclusive-role instance — strictly better role rank, or equal rank (same
role) and a discovery timestamp no later; and when any exclusive-role
instance is bound, some exclusive-role instance is active. -/
theorem conflictResolve_exclusive_roles (pri : List String)
    (tbl : List DeviceInstance) :
    ((conflictResolve pri tbl).length = tbl.length) ∧
    (∀ role0 ∈ pri,
      (conflictResolve pri tbl).countP
        (fun d => d.role == role0 && d.active) ≤ 1) ∧
    (∀ k (hk : k < tbl.length)
        (hk2 : k < (conflictResolve pri tbl).length),
      eraseActive ((conflictResolve pri tbl).get ⟨k, hk2⟩) =
        eraseActive (tbl.get ⟨k, hk⟩)) ∧
    (∀ k (hk : k < tbl.length)
        (hk2 : k < (conflictResolve pri tbl).length),
      exclusiveRole pri (tbl.get ⟨k, hk⟩) = true →
      ((conflictResolve pri tbl).get ⟨k, hk2⟩).active = true →
      ∀ j (hj : j < tbl.length),
        exclusiveRole pri (tbl.get ⟨j, hj⟩) = true →
        ∀ a b, roleRank pri (tbl.get ⟨k, hk⟩).role = some a →
          roleRank pri (tbl.get ⟨j, hj⟩).role = some b →
          (a < b ∨ (a = b ∧ (tbl.get ⟨k, hk⟩).discoveryTimestamp ≤
            (tbl.get ⟨j, hj⟩).discoveryTimestamp))) ∧
    ((∃ j, ∃ hj : j < tbl.length,
        exclusiveRole pri (tbl.get ⟨j, hj⟩) = true) →
      ∃ k, ∃ hk2 : k < (conflictResolve pri tbl).length,
        ((conflictResolve pri tbl).get ⟨k, hk2⟩).active = true ∧
        exclusiveRole pri ((conflictResolve pri tbl).get ⟨k, hk2⟩) = true) := by
  refine ⟨?_, ?_, ?_, ?_, ?_⟩
  · exact applyActives_length (winnerIdx pri tbl) pri 0 tbl
  · intro role0 hrole
    have hmono : ∀ d ∈ conflictResolve pri tbl,
        (d.role == role0 && d.active) = true →
        activeExclusive pri d = true := by
      intro d _ hd
      simp only [Bool.and_eq_true, beq_iff_eq] at hd
      rcases hd with ⟨hre, ha⟩
      unfold activeExclusive exclusiveRole
      rw [Bool.and_eq_true]
      refine ⟨?_, ha⟩
      rw [hre]
      exact roleRank_isSome_of_mem hrole
    exact le_trans (List.countP_mono_left hmono)
      (applyActives_countP_le_one pri (winnerIdx pri tbl) 0 tbl)
  · intro k hk hk2
    have h := applyActives_get (winnerIdx pri tbl) pri 0 tbl k hk hk2
    show eraseActive ((applyActives (winnerIdx pri tbl) pri 0 tbl).get ⟨k, hk2⟩) =
      eraseActive (tbl.get ⟨k, hk⟩)
    rw [h]
    split <;> rfl
  · intro k hk hk2 hx ha j hj hxj a b hra hrb
    have h := applyActives_get (winnerIdx pri tbl) pri 0 tbl k hk hk2
    have ha' : ((applyActives (winnerIdx pri tbl) pri 0 tbl).get
        ⟨k, hk2⟩).active = true := ha
    rw [h, if_pos hx, active_update_active] at ha'
    have hw : winnerIdx pri tbl = some k := by
      have := of_decide_eq_true ha'
      rwa [Nat.zero_add] at this
    rcases winnerIdx_spec pri tbl k hw with ⟨hk', _, hmin⟩
    have hjm : (j, tbl.get ⟨j, hj⟩) ∈ exclusiveMembers pri tbl :=
      (mem_exclusiveMembers pri tbl _).mpr ⟨⟨hj, rfl⟩, hxj⟩
    have hle := hmin _ hjm
    have hsame : tbl.get ⟨k, hk'⟩ = tbl.get ⟨k, hk⟩ := rfl
    rw [hsame] at hle
    exact winnerKey_le_unpack pri k j (tbl.get ⟨k, hk⟩) (tbl.get ⟨j, hj⟩)
      hle a b hra hrb
  · rintro ⟨j, hj, hxj⟩
    have hjm : (j, tbl.get ⟨j, hj⟩) ∈ exclusiveMembers pri tbl :=
      (mem_exclusiveMembers pri tbl _).mpr ⟨⟨hj, rfl⟩, hxj⟩
    have hne : exclusiveMembers pri tbl ≠ [] := by
      intro h0
      rw [h0] at hjm
      cases hjm
    obtain ⟨m, hm⟩ : ∃ m,
        (exclusiveMembers pri tbl).argmin (winnerKey pri) = some m := by
      cases hargm : (exclusiveMembers pri tbl).argmin (winnerKey pri) with
      | none => exact absurd (List.argmin_eq_none.mp hargm) hne
      | some m0 => exact ⟨m0, rfl⟩
    have hw : winnerIdx pri tbl = some m.1 := by
      unfold winnerIdx
      rw [hm]
      rfl
    rcases winnerIdx_spec pri tbl m.1 hw with ⟨hk, hex, _⟩
    have hk2 : m.1 < (conflictResolve pri tbl).length := by
      rw [show conflictResolve pri tbl =
        applyActives (winnerIdx pri tbl) pri 0 tbl from rfl]
      rw [applyActives_length]
      exact hk
    have h := applyActives_get (winnerIdx pri tbl) pri 0 tbl m.1 hk hk2
    refine ⟨m.1, hk2, ?_, ?_⟩
    · show ((applyActives (winnerIdx pri tbl) pri 0 tbl).get
        ⟨m.1, hk2⟩).active = true
      rw [h, if_pos hex, active_update_active]
      refine decide_eq_true ?_
      rw [Nat.zero_add]
      exact hw
    · show exclusiveRole pri ((applyActives (winnerIdx pri tbl) pri 0 tbl).get
        ⟨m.1, hk2⟩) = true
      rw [h, if_pos hex, exclusiveRole_update_active]
      exact hex

/-- C5 (witness): on the two-instance table of spec scenario 2 with
`role_priority = [mag, mag_spine]`, at most one `mag` and one `mag_spine`
instance is active, the resolver changes nothing but `active` flags, the
active instance at position 1 (the `smartmag_v1`, rank 0) ranks no worse
than the `smartspine_v1` at position 0 (rank 1), and some exclusive-role
instance is active. -/
theorem conflictResolve_exclusive_roles_witness :
    (conflictResolve demoPriority demoTable).countP
      (fun d => d.role == "mag" && d.active) ≤ 1 ∧
    eraseActive ((conflictResolve demoPriority demoTable).get ⟨0, by decide⟩) =
      eraseActive (demoTable.get ⟨0, by decide⟩) ∧
    (0 < 1 ∨ (0 = 1 ∧ (demoTable.get ⟨1, by decide⟩).discoveryTimestamp ≤
      (demoTable.get ⟨0, by decide⟩).discoveryTimestamp)) ∧
    (∃ k, ∃ hk2 : k < (conflictResolve demoPriority demoTable).length,
      ((conflictResolve demoPriority demoTable).get ⟨k, hk2⟩).active = true ∧
      exclusiveRole demoPriority
        ((conflictResolve demoPriority demoTable).get ⟨k, hk2⟩) = true) :=
  ⟨(conflictResolve_exclusive_roles demoPriority demoTable).2.1 "mag"
     (by decide),
   (conflictResolve_exclusive_roles demoPriority demoTable).2.2.1 0
     (by decide) (by decide),
   (conflictResolve_exclusive_roles demoPriority demoTable).2.2.2.1 1
     (by decide) (by decide) (by decide) (by decide) 0 (by decide)
     (by decide) 0 1 (by decide) (by decide),
   (conflictResolve_exclusive_roles demoPriority demoTable).2.2.2.2
     ⟨0, by decide, by decide⟩⟩

/-- C6: in every reachable Device Table state the number of bound
instances never exceeds `max_devices`; a valid candidate arriving at the
cap is appended to the tail of the pending FIFO queue, never bound;
insertion binds at most the inserted candidate (it never promotes a queued
one); and a removal that frees a slot promotes exactly the oldest pending
candidate while one that does not leaves the queue untouched. -/
theorem deviceTable_cap_and_pending_queue (mx : Nat) :
    (∀ s, ReachableTable mx s → s.bound.length ≤ mx) ∧
    (∀ s c, mx ≤ s.bound.length →
      insertCandidate mx s c = { s with pending := s.pending ++ [c] }) ∧
    (∀ s c, (insertCandidate mx s c).bound = s.bound ∨
      (insertCandidate mx s c).bound = s.bound ++ [c]) ∧
    (∀ s failed c rest, s.pending = c :: rest →
      (s.bound.filter (fun d => !(failed d))).length < mx →
      removeInstance mx s failed =
        { bound := s.bound.filter (fun d => !(failed d)) ++ [c],
          pending := rest }) ∧
    (∀ s failed, mx ≤ (s.bound.filter (fun d => !(failed d))).length →
      removeInstance mx s failed =
        { bound := s.bound.filter (fun d => !(failed d)),
          pending := s.pending }) := by
  refine ⟨?_, ?_, ?_, ?_, ?_⟩
  · intro s hs
    induction hs with
    | init => simp [emptyTable]
    | insert s c hs ih =>
        unfold insertCandidate
        split
        · rename_i hlt
          simpa using hlt
        · simpa using ih
    | remove s failed hs ih =>
        unfold removeInstance
        simp only
        split
        · rename_i hlt
          split
          · simpa using le_of_lt hlt
          · simpa using hlt
        · simp only
          exact le_trans (List.length_filter_le _ _) ih
  · intro s c h
    unfold insertCandidate
    rw [if_neg (Nat.not_lt.mpr h)]
  · intro s c
    unfold insertCandidate
    split
    · exact Or.inr rfl
    · exact Or.inl rfl
  · intro s failed c rest hpend hlt
    unfold removeInstance
    simp only
    rw [if_pos hlt, hpend]
  · intro s failed h
    unfold removeInstance
    simp only
    rw [if_neg (Nat.not_lt.mpr h)]

/-- C6 (witness): with `max_devices = 2`, inserting the spine, the mag and
the barrel candidate leaves at most two bound; the third insertion at the
cap queues the barrel candidate; and removing the spine instance from the
full table with the barrel queued promotes the barrel into the freed
slot. -/
theorem deviceTable_cap_and_pending_queue_witness :
    (insertCandidate 2 demoFullTable demoBarrelInstance).bound.length ≤ 2 ∧
    insertCandidate 2 demoFullTable demoBarrelInstance =
      { demoFullTable with
          pending := demoFullTable.pending ++ [demoBarrelInstance] } ∧
    removeInstance 2 demoQueuedTable demoSpineFailed =
      { bound := demoQueuedTable.bound.filter (fun d => !(demoSpineFailed d)) ++
          [demoBarrelInstance],
        pending := [] } :=
  ⟨(deviceTable_cap_and_pending_queue 2).1 _
     (ReachableTable.insert _ _ (ReachableTable.insert _ _
       (ReachableTable.insert _ _ ReachableTable.init))),
   (deviceTable_cap_and_pending_queue 2).2.1 demoFullTable demoBarrelInstance
     (by decide),
   (deviceTable_cap_and_pending_queue 2).2.2.2.1 demoQueuedTable
     demoSpineFailed demoBarrelInstance [] rfl (by decide)⟩

/-- In a concatenation of retractions followed by forwards, every
retraction position precedes every forward position. -/
theorem retraction_position_lt_forward_position (A B : List SinkMsg)
    (hA : ∀ m ∈ A, m.isRetraction = true)
    (hB : ∀ m ∈ B, m.isRetraction = false) :
    ∀ i j (hi : i < (A ++ B).length) (hj : j < (A ++ B).length)
      (t : RouteTarget) (cap src : String) (v : Int),
      (A ++ B).get ⟨i, hi⟩ = .retraction t cap →
      (A ++ B).get ⟨j, hj⟩ = .forward t cap src v → i < j := by
  intro i j hi hj t cap src v hri hfj
  have hiA : i < A.length := by
    by_contra hge
    have hmem : (A ++ B).get ⟨i, hi⟩ ∈ B := by
      rw [List.get_eq_getElem, List.getElem_append_right (Nat.le_of_not_lt hge)]
      exact List.getElem_mem _
    have hfalse := hB _ hmem
    rw [hri] at hfalse
    simp [SinkMsg.isRetraction] at hfalse
  have hjB : A.length ≤ j := by
    by_contra hlt
    have hmem : (A ++ B).get ⟨j, hj⟩ ∈ A := by
      rw [List.get_eq_getElem, List.getElem_append_left (Nat.lt_of_not_le hlt)]
      exact List.getElem_mem _
    have htrue := hA _ hmem
    rw [hfj] at htrue
    simp [SinkMsg.isRetraction] at htrue
  omega

/-- C8: after an active device is removed, the next Routing Engine tick
delivers a retraction notice to every (target, capability) pair that
previously received values from the removed device, and within that tick's
message sequence every retraction notice for a (target, capability) pair
is delivered before any forward of the same capability to the same target
from any other device. -/
theorem routing_retraction_before_forward (s : RoutingState) (dev : String)
    (reqs : List PublishReq) :
    (∀ t cap, (dev, t, cap) ∈ s.delivered →
      SinkMsg.retraction t cap ∈ (routingTick (removeDevice s dev) reqs).1) ∧
    (∀ i j (hi : i < (routingTick (removeDevice s dev) reqs).1.length)
        (hj : j < (routingTick (removeDevice s dev) reqs).1.length)
        (t : RouteTarget) (cap src : String) (v : Int),
      (routingTick (removeDevice s dev) reqs).1.get ⟨i, hi⟩ =
        .retraction t cap →
      (routingTick (removeDevice s dev) reqs).1.get ⟨j, hj⟩ =
        .forward t cap src v →
      i < j) := by
  constructor
  · intro t cap hmem
    show SinkMsg.retraction t cap ∈
      (removeDevice s dev).pendingRetractions.map
        (fun tc => SinkMsg.retraction tc.1 tc.2) ++
        reqs.flatMap publishMsgs
    refine List.mem_append_left _ ?_
    refine List.mem_map.mpr ⟨(t, cap), ?_, rfl⟩
    show (t, cap) ∈ s.pendingRetractions ++
      (s.delivered.filter (fun rec => rec.1 == dev)).map
        (fun rec => (rec.2.1, rec.2.2))
    refine List.mem_append_right _ ?_
    refine List.mem_map.mpr ⟨(dev, t, cap), ?_, rfl⟩
    exact List.mem_filter.mpr ⟨hmem, by simp⟩
  · refine retraction_position_lt_forward_position _ _ ?_ ?_
    · intro m hm
      rcases List.mem_map.mp hm with ⟨tc, _, hmt⟩
      rw [← hmt]
      rfl
    · intro m hm
      rcases List.mem_flatMap.mp hm with ⟨p, _, hmp⟩
      unfold publishMsgs at hmp
      by_cases hact : p.active = true
      · rw [if_pos hact] at hmp
        rcases List.mem_map.mp hmp with ⟨tgt, _, hmt⟩
        rw [← hmt]
        rfl
      · rw [if_neg hact] at hmp
        cases hmp

/-- C8 (witness): with the display having previously received
`muzzle_velocity` from `barrel_chrono_v1`, removing that device and
ticking with a fresh `muzzle_velocity` publish from a second chronograph
delivers the retraction to the display, and the retraction at position 0
precedes the matching forward at position 1. -/
theorem routing_retraction_before_forward_witness :
    SinkMsg.retraction RouteTarget.toDisplay "muzzle_velocity" ∈
      (routingTick (removeDevice demoRoutingState "barrel_chrono_v1")
        [demoChronoReq]).1 ∧
    (0 : Nat) < 1 :=
  ⟨(routing_retraction_before_forward demoRoutingState "barrel_chrono_v1"
      [demoChronoReq]).1 RouteTarget.toDisplay "muzzle_velocity" (by decide),
   (routing_retraction_before_forward demoRoutingState "barrel_chrono_v1"
      [demoChronoReq]).2 0 1 (by decide) (by decide) RouteTarget.toDisplay
      "muzzle_velocity" "barrel_chrono_v2" 95 (by decide) (by decide)⟩

end TAFY
